import Mathlib

/-!
Verification of the core Blockchain controller of an in-memory Ethereum-compatible
blockchain simulator (ganache-core): snapshot/revert, block filling and saving,
event emission order, transaction simulation, clock adjustment, and miner options.

The definitions below are a shallow embedding of the TypeScript source:

  * `Blockchain` (blockchain.ts): `snapshot`, `revert`, `#fillNewBlock`,
    `#emitNewBlock`, `simulateTransaction`, `increaseTime`, `setTime`,
    `#currentTime`, constructor warnings;
  * `MinerOptions` (options/miner-options.ts): defaults and `extraData` normalization.

Buffers and 32-byte hashes are abstracted as `Nat`, addresses and byte strings as
`List Nat`, JavaScript bigints and the millisecond clock as `Int`.  Header hashing
(`header.hash()`, provided by the external ethereumjs-block library) is kept as an
abstract function parameter `hashFn : HeaderM → Nat`.
-/

/-! ## Data model -/

/-- Block header, per the header fields the controller reads and writes
(parent-hash, number, coinbase, timestamp, gas-limit, gas-used, state-root,
tx-trie-root, receipt-trie-root, extra-data). -/
structure HeaderM where
  parentHash : Nat
  number : Nat
  coinbase : List Nat
  timestamp : Nat
  gasLimit : Nat
  transactionsTrie : Nat
  receiptTrie : Nat
  stateRoot : Nat
  gasUsed : Nat
  extraData : List Nat
deriving DecidableEq, Repr

/-- A block: header plus ordered transactions (transactions abstracted by hash). -/
structure BlockM where
  header : HeaderM
  transactions : List Nat
deriving DecidableEq, Repr

/-- Zero address, `utils.ACCOUNT_ZERO` (20 zero bytes). -/
def ACCOUNT_ZERO : List Nat := List.replicate 20 0

/-! ## Clock (`#timeAdjustment`, `#currentTime`, `increaseTime`, `setTime`)

`#timeAdjustment` is a millisecond offset added to `Date.now()`; block timestamps
are produced by `#currentTime`. `now` stands for `Date.now()` in milliseconds. -/

/-- `#currentTime`: `Math.floor((Date.now() + this.#timeAdjustment) / 1000)`,
the timestamp used for the next mined block, in seconds. -/
def currentTime (now adj : Int) : Int := (now + adj).fdiv 1000

/-- `increaseTime(seconds)`: clamps a negative argument to 0, adds the argument to
`#timeAdjustment` and returns the new total offset.  Result is
(returned value, new `#timeAdjustment`). -/
def increaseTime (seconds adj : Int) : Int × Int :=
  let s := if seconds < 0 then 0 else seconds
  (adj + s, adj + s)

/-- `setTime(timestamp)`: sets `#timeAdjustment := timestamp - Date.now()` and
returns it.  Result is (returned value, new `#timeAdjustment`). -/
def setTime (timestamp now : Int) : Int × Int :=
  (timestamp - now, timestamp - now)

/-! ## Snapshots (`Blockchain.snapshot` / `Blockchain.revert`)

The `Snapshots` record (types/snapshots) is fully determined by its uses in the
controller: an ordered list `snaps` of {block, timeAdjustment} pairs, a
singly-linked list `blocks` of post-snapshot block hashes (newest first, `[]` for
`null`), and the block-event subscription (kept as a flag). -/

/-- One snapshot entry: the head block and the clock offset at capture time. -/
structure SnapshotM where
  block : BlockM
  timeAdjustment : Int
deriving DecidableEq, Repr

/-- The controller's `#snapshots` record. -/
structure SnapshotsM where
  snaps : List SnapshotM
  blocks : List Nat
  subscribed : Bool
deriving DecidableEq, Repr

/-- The observable controller state that `snapshot`/`revert` read and write:
`#snapshots`, `blocks.latest`, `#timeAdjustment`, the transaction pool
(transactions abstracted by hash), the set of block hashes stored in the
database, and the VM state manager's trie root. -/
structure BlockchainM where
  snapshots : SnapshotsM
  latest : BlockM
  timeAdjustment : Int
  pool : List Nat
  db : List Nat
  stateRoot : Nat
deriving DecidableEq, Repr

/-- `Blockchain.snapshot()`: push {latest, timeAdjustment} onto `snaps`; the id is
the new length (`Array.push`'s return value); subscribe to block events when this
is the first live snapshot.  Result is (returned id, new state). -/
def Blockchain.snapshot (s : BlockchainM) : Nat × BlockchainM :=
  let snaps := s.snapshots.snaps ++
    [{ block := s.latest, timeAdjustment := s.timeAdjustment }]
  let id := snaps.length
  let snapshots :=
    if id = 1 then { s.snapshots with snaps := snaps, subscribed := true }
    else { s.snapshots with snaps := snaps }
  (id, { s with snapshots := snapshots })

/-- The block-event handler installed by the first `snapshot()`: push the new
block's hash onto the post-snapshot chain. -/
def Blockchain.onBlockWhileSnapshotted (blockHash : Nat) (s : BlockchainM) :
    BlockchainM :=
  { s with snapshots := { s.snapshots with blocks := blockHash :: s.snapshots.blocks } }

/-- `Blockchain.revert(snapshotId)`: throws for a null/undefined id (`none`),
returns `false` for ids < 1 or beyond the live snapshot list; otherwise clears the
pool, truncates `snaps` at the snapshot's index, unsubscribes when no snapshots
remain, and — when the head hash differs from the captured hash — deletes the
post-snapshot blocks from the database, resets the VM trie root to the captured
state root and restores `blocks.latest`; finally restores `#timeAdjustment`.
Result is the returned boolean with the new state, or the thrown error. -/
def Blockchain.revert (hashFn : HeaderM → Nat) (snapshotId : Option Int)
    (s : BlockchainM) : Except String (Bool × BlockchainM) :=
  match snapshotId with
  | none => Except.error "invalid snapshotId"
  | some rawValue =>
    if rawValue < 1 then Except.ok (false, s)
    else
      let snapshotIndex := (rawValue - 1).toNat
      match s.snapshots.snaps[snapshotIndex]? with
      | none => Except.ok (false, s)
      | some snapshot =>
        let currentHash := hashFn s.latest.header
        let snapshotBlock := snapshot.block
        let snapshotHash := hashFn snapshotBlock.header
        let snaps := s.snapshots.snaps.take snapshotIndex
        let subscribed := if snaps.length = 0 then false else s.snapshots.subscribed
        if currentHash = snapshotHash then
          Except.ok (true,
            { s with
                pool := [],
                snapshots := { snaps := snaps, blocks := s.snapshots.blocks,
                               subscribed := subscribed },
                timeAdjustment := snapshot.timeAdjustment })
        else
          let toDelete := s.snapshots.blocks.takeWhile (fun h => h ≠ snapshotHash)
          let blockList := s.snapshots.blocks.dropWhile (fun h => h ≠ snapshotHash)
          Except.ok (true,
            { s with
                pool := [],
                snapshots := { snaps := snaps, blocks := blockList,
                               subscribed := subscribed },
                db := s.db.filter (fun h => !(toDelete.contains h)),
                stateRoot := snapshotBlock.header.stateRoot,
                latest := snapshotBlock,
                timeAdjustment := snapshot.timeAdjustment })

/-! ## Miner options (options/miner-options.ts) -/

/-- The resolved miner configuration.  `extraData` has no default in the source;
here it is a plain byte string and only its normalization is specified. -/
structure MinerOptionsM where
  blockTime : Nat
  gasPrice : Nat
  blockGasLimit : Nat
  defaultTransactionGasLimit : Nat
  callGasLimit : Nat
  coinbase : List Nat
  extraData : List Nat
  legacyInstamine : Bool
deriving DecidableEq, Repr

/-- The `default` thunks of `MinerOptions`: blockTime 0, gasPrice 2_000_000_000,
blockGasLimit 12_000_000, defaultTransactionGasLimit 90_000, callGasLimit
`Number.MAX_SAFE_INTEGER`, coinbase `ACCOUNT_ZERO`, legacyInstamine false.
(`extraData := []` here stands only for "unset": the source defines no default
for it.) -/
def minerDefaults : MinerOptionsM :=
  { blockTime := 0,
    gasPrice := 2000000000,
    blockGasLimit := 12000000,
    defaultTransactionGasLimit := 90000,
    callGasLimit := 9007199254740991,
    coinbase := ACCOUNT_ZERO,
    extraData := [],
    legacyInstamine := false }

/-- `MinerOptions.extraData.normalize`: throw when the supplied value is longer
than 32, otherwise return it unchanged. -/
def extraDataNormalize (raw : List Nat) : Except String (List Nat) :=
  if raw.length > 32 then
    Except.error "extra exceeds max length"
  else
    Except.ok raw

/-- The miner-configuration handling in the `Blockchain` constructor: compute the
instamine flag (`!blockTime || blockTime <= 0`) and log warnings — a deprecation
notice when legacy instamine is on, a no-effect notice when legacy instamine is
combined with interval mining, and a no-effect notice for
`vmErrorsOnRPCResponse` with interval mining.  No combination is rejected: the
constructor always proceeds (`Except.ok`). -/
def configureMiner (blockTime : Nat) (legacyInstamine vmErrorsOnRPCResponse : Bool) :
    Except String (Bool × List String) :=
  let instamine := blockTime == 0
  let warnings :=
    (if legacyInstamine then ["legacy-instamine-deprecated"] else [])
      ++ (if !instamine && legacyInstamine then ["legacyInstamine-no-effect"]
          else [])
      ++ (if !instamine && vmErrorsOnRPCResponse then
            ["vmErrorsOnRPCResponse-no-effect"]
          else [])
  Except.ok (instamine, warnings)

/-! ## Block filling (`#fillNewBlock`, `#initializeGenesisBlock`) -/

/-- Miner output consumed by `#fillNewBlock` (miner/miner's `BlockData`): included
transactions, transactions-trie root, receipt-trie root, gas used, timestamp. -/
structure BlockDataM where
  blockTransactions : List Nat
  transactionsTrieRoot : Nat
  receiptTrieRoot : Nat
  gasUsed : Nat
  timestamp : Nat
deriving DecidableEq, Repr

/-- The header fields `#fillNewBlock` passes to `blocks.createBlock`. -/
structure CreateBlockFields where
  parentHash : Nat
  number : Nat
  coinbase : List Nat
  timestamp : Nat
  gasLimit : Nat
  transactionsTrie : Nat
  receiptTrie : Nat
  stateRoot : Nat
  gasUsed : Nat
deriving DecidableEq, Repr

/-- Modelled from the spec: `BlockManager.createBlock` lives in
data-managers/block-manager, which is not under src/.  Per the spec's data model
the block's header carries the fields supplied by the caller; header fields the
caller does not supply keep the block default, and the default extra-data is the
empty byte string. -/
def createBlock (f : CreateBlockFields) (txs : List Nat) : BlockM :=
  { header :=
      { parentHash := f.parentHash, number := f.number, coinbase := f.coinbase,
        timestamp := f.timestamp, gasLimit := f.gasLimit,
        transactionsTrie := f.transactionsTrie, receiptTrie := f.receiptTrie,
        stateRoot := f.stateRoot, gasUsed := f.gasUsed, extraData := [] },
    transactions := txs }

/-- `#fillNewBlock`: build the next block from the previous head.  `opts` is the
resolved miner configuration (`this.#options.miner`), `coinbase` the configured
coinbase address (`this.coinbase`), `trieRoot` the current world-trie root
(`this.trie.root`). -/
def fillNewBlock (hashFn : HeaderM → Nat) (opts : MinerOptionsM)
    (coinbase : List Nat) (trieRoot : Nat) (latest : BlockM)
    (blockData : BlockDataM) : BlockM :=
  let prevHeader := latest.header
  let prevNumber := prevHeader.number
  createBlock
    { parentHash := hashFn prevHeader,
      number := prevNumber + 1,
      coinbase := coinbase,
      timestamp := blockData.timestamp,
      gasLimit := opts.blockGasLimit,
      transactionsTrie := blockData.transactionsTrieRoot,
      receiptTrie := blockData.receiptTrieRoot,
      stateRoot := trieRoot,
      gasUsed := blockData.gasUsed }
    blockData.blockTransactions

/-- `#initializeGenesisBlock`: the genesis block gets number 0, the supplied
timestamp and gas limit, and the current trie root (`blocks.next` itself lives in
block-manager outside src/; the header fields are the ones passed at the call
site, the rest default as in `createBlock`). -/
def initializeGenesisBlock (timestamp gasLimit trieRoot : Nat) : BlockM :=
  createBlock
    { parentHash := 0, number := 0, coinbase := [], timestamp := timestamp,
      gasLimit := gasLimit, transactionsTrie := 0, receiptTrie := 0,
      stateRoot := trieRoot, gasUsed := 0 }
    []

/-! ## Block save pipeline events (`#emitNewBlock`) -/

/-- Observable steps of `#emitNewBlock`: per-transaction finalization, the
deferred scheduling turn of legacy instamine (`process.nextTick`), and the two
emissions. -/
inductive BcEvent where
  | finalized (txHash : Nat)
  | tick
  | blockLogs (blockHash : Nat)
  | block (blockHash : Nat)
deriving DecidableEq, Repr

/-- `#emitNewBlock` as the trace of observable steps it performs, in order: each
included transaction is finalized, then — deferred one scheduling turn when both
instamine and legacy instamine are on — `blockLogs` is emitted, then `block`. -/
def emitNewBlock (instamine legacyInstamine : Bool) (txs : List Nat)
    (blockHash : Nat) : List BcEvent :=
  (txs.map BcEvent.finalized
      ++ (if instamine && legacyInstamine then [BcEvent.tick] else []))
    ++ [BcEvent.blockLogs blockHash, BcEvent.block blockHash]

/-! ## Transaction simulation (`simulateTransaction`)

The VM's `runCall` and `Transaction.calculateIntrinsicGas` are external
collaborators (ethereumjs-vm and things/transaction); they are kept abstract as
function parameters. -/

/-- A checkpointed trie view: the underlying database (`database.trie`) and the
root it was opened at. -/
structure CheckpointTrieM where
  db : List (Nat × List Nat)
  root : Nat
deriving DecidableEq, Repr

/-- The `SimulationTransaction` argument of `simulateTransaction`. -/
structure SimulationTxM where
  sender : Nat
  toAddr : Option Nat
  gas : Int
  gasPrice : Nat
  value : Option Nat
  data : Option (List Nat)
  blockHash : Nat
deriving DecidableEq, Repr

/-- The argument record the source passes to `vm.runCall`. -/
structure CallSpec where
  caller : Nat
  data : Option (List Nat)
  gasPrice : Nat
  gasLimit : Int
  toAddr : Option Nat
  value : Option Nat
  blockHash : Nat
deriving DecidableEq, Repr

/-- Execution-result error kinds (`ethereumjs-vm` `ERROR` codes, abstracted). -/
inductive VmErrorKind where
  | outOfGas
  | revert
  | other (code : Nat)
deriving DecidableEq, Repr

/-- `EVMResult.execResult`, restricted to the fields the controller reads. -/
structure EVMResultM where
  exceptionError : Option VmErrorKind
  returnValue : List Nat
deriving DecidableEq, Repr

/-- `RuntimeError(hash, result, RETURN_TYPES.RETURN_VALUE)` as thrown by
`simulateTransaction`: the (empty) transaction hash and the wrapped result. -/
structure RuntimeErrorM where
  hash : List Nat
  result : EVMResultM
deriving DecidableEq, Repr

/-- The execution half of `simulateTransaction` (the body up to the error
handling): subtract the intrinsic gas from the supplied gas; when gas remains,
open a fresh trie view on `database.trie` at the parent block's state root and
run the VM call on it; otherwise produce an out-of-gas result without invoking
the VM.  Returns the `EVMResult` and the trie view used (`none` when the VM was
not run).  `dbTrie` is `this.#database.trie`. -/
def simulateExec (intrinsicGas : Option (List Nat) → Int)
    (runCall : CheckpointTrieM → CallSpec → EVMResultM)
    (tx : SimulationTxM) (parentBlock : BlockM) (dbTrie : List (Nat × List Nat)) :
    EVMResultM × Option CheckpointTrieM :=
  let gasLeft := tx.gas - intrinsicGas tx.data
  if 0 ≤ gasLeft then
    let stateTrie : CheckpointTrieM :=
      { db := dbTrie, root := parentBlock.header.stateRoot }
    (runCall stateTrie
      { caller := tx.sender, data := tx.data, gasPrice := tx.gasPrice,
        gasLimit := gasLeft, toAddr := tx.toAddr, value := tx.value,
        blockHash := tx.blockHash },
     some stateTrie)
  else
    ({ exceptionError := some VmErrorKind.outOfGas, returnValue := [] }, none)

/-- The response half of `simulateTransaction`: when the result carries an
exception, throw a `RuntimeError` if `vmErrorsOnRPCResponse` is set and return
the result's return value otherwise; with no exception, return the return
value. -/
def simulateRespond (vmErrorsOnRPCResponse : Bool) (result : EVMResultM) :
    Except RuntimeErrorM (List Nat) :=
  match result.exceptionError with
  | some _ =>
    if vmErrorsOnRPCResponse then
      Except.error { hash := [], result := result }
    else
      Except.ok result.returnValue
  | none => Except.ok result.returnValue

/-- The observable controller state around a simulation: head world-trie root,
head block, pool, and the trie database. -/
structure SimChainState where
  trieRoot : Nat
  latest : BlockM
  pool : List Nat
  dbTrie : List (Nat × List Nat)
deriving DecidableEq, Repr

/-- `simulateTransaction`: execution then response mapping.  The controller state
is threaded through unchanged — the body only builds local views; the trie view
the VM ran on (if any) is returned for inspection. -/
def simulateTransaction (vmErrorsOnRPCResponse : Bool)
    (intrinsicGas : Option (List Nat) → Int)
    (runCall : CheckpointTrieM → CallSpec → EVMResultM)
    (tx : SimulationTxM) (parentBlock : BlockM) (s : SimChainState) :
    Except RuntimeErrorM (List Nat) × SimChainState × Option CheckpointTrieM :=
  let rv := simulateExec intrinsicGas runCall tx parentBlock s.dbTrie
  (simulateRespond vmErrorsOnRPCResponse rv.1, s, rv.2)

/-! ## Theorems: clock claims -/

/-- Claim C7: the spec says `increaseTime(s)` makes the next block timestamp `s`
seconds later.  The code adds the seconds argument directly to the millisecond
offset `#timeAdjustment`, so `increaseTime(1)` leaves the next block timestamp
unchanged (instead of one second later), while `increaseTime(1000)` moves it by
exactly one second.  The `setTime(t)` half of the claim does hold: the next block
timestamp becomes `t` milliseconds expressed in seconds. -/
theorem increaseTime_seconds_treated_as_milliseconds :
    currentTime 0 0 = 0 ∧
    (increaseTime 1 0).2 = 1 ∧
    currentTime 0 (increaseTime 1 0).2 = 0 ∧
    (increaseTime 1000 0).2 = 1000 ∧
    currentTime 0 (increaseTime 1000 0).2 = 1 ∧
    (∀ t now : Int, currentTime now (setTime t now).2 = t.fdiv 1000) := by
  refine ⟨by decide, by decide, by decide, by decide, by decide, ?_⟩
  intro t now
  simp [currentTime, setTime]

/-- Claim C10: a negative argument to `increaseTime` is treated as 0 and leaves the
offset unchanged, and both `increaseTime` and `setTime` return the resulting total
time-adjustment offset. -/
theorem increaseTime_negative_clamped (s adj : Int) (h : s < 0) :
    increaseTime s adj = (adj, adj) ∧
    (∀ s2 adj2 : Int, (increaseTime s2 adj2).1 = (increaseTime s2 adj2).2) ∧
    (∀ t now : Int, (setTime t now).1 = (setTime t now).2) := by
  refine ⟨?_, fun s2 adj2 => rfl, fun t now => rfl⟩
  simp [increaseTime, h]

/-- Claim C10 witness: `increaseTime(-5)` with offset 7 returns 7 and keeps the
offset at 7. -/
theorem increaseTime_negative_clamped_witness :
    increaseTime (-5) 7 = (7, 7) ∧
    (∀ s2 adj2 : Int, (increaseTime s2 adj2).1 = (increaseTime s2 adj2).2) ∧
    (∀ t now : Int, (setTime t now).1 = (setTime t now).2) :=
  increaseTime_negative_clamped (-5) 7 (by decide)

/-! ## Theorems: snapshot and revert -/

/-- `revert` with a non-null id never throws: every path through the body after
the null check returns a boolean. -/
theorem revert_some_never_throws (hashFn : HeaderM → Nat) (v : Int)
    (s : BlockchainM) :
    ∃ r, Blockchain.revert hashFn (some v) s = Except.ok r := by
  simp only [Blockchain.revert]
  split
  · exact ⟨_, rfl⟩
  · split
    · exact ⟨_, rfl⟩
    · split
      · exact ⟨_, rfl⟩
      · exact ⟨_, rfl⟩

/-- Claim C1: `snapshot()` returns a 1-based id equal to the new length of the
snapshot list, and whenever snapshot `k` is live, `revert(k)` succeeds and
afterwards the latest block's hash equals the captured block's hash, the
time-adjustment offset equals the captured offset, and the snapshot list is
truncated to the first `k - 1` entries (every snapshot with id ≥ k removed). -/
theorem snapshot_revert_restores_captured_state (hashFn : HeaderM → Nat)
    (s : BlockchainM) (k : Nat) (snap : SnapshotM)
    (h1 : 1 ≤ k) (hk : s.snapshots.snaps[k - 1]? = some snap) :
    ((Blockchain.snapshot s).1 = s.snapshots.snaps.length + 1 ∧
     (Blockchain.snapshot s).1 =
       (Blockchain.snapshot s).2.snapshots.snaps.length) ∧
    ∃ s', Blockchain.revert hashFn (some ((k : Nat) : Int)) s =
        Except.ok (true, s') ∧
      hashFn s'.latest.header = hashFn snap.block.header ∧
      s'.timeAdjustment = snap.timeAdjustment ∧
      s'.snapshots.snaps = s.snapshots.snaps.take (k - 1) := by
  constructor
  · constructor
    · simp [Blockchain.snapshot]
    · simp only [Blockchain.snapshot]
      split <;> simp
  · have hlt : ¬ ((k : Int) < 1) := by omega
    have hidx : (((k : Nat) : Int) - 1).toNat = k - 1 := by omega
    simp only [Blockchain.revert, hlt, if_false, hidx, hk]
    split
    next heq => exact ⟨_, rfl, heq, rfl, rfl⟩
    next hne => exact ⟨_, rfl, rfl, rfl, rfl⟩

/-- Concrete genesis-like header used in witnesses. -/
def exHeader0 : HeaderM :=
  { parentHash := 0, number := 0, coinbase := ACCOUNT_ZERO, timestamp := 0,
    gasLimit := 12000000, transactionsTrie := 0, receiptTrie := 0,
    stateRoot := 5, gasUsed := 0, extraData := [] }

/-- Concrete genesis-like block used in witnesses. -/
def exBlock0 : BlockM := { header := exHeader0, transactions := [] }

/-- Concrete successor header used in witnesses. -/
def exHeader1 : HeaderM := { exHeader0 with number := 1, stateRoot := 6 }

/-- Concrete successor block used in witnesses. -/
def exBlock1 : BlockM := { header := exHeader1, transactions := [77] }

/-- Concrete header-hash function used in witnesses. -/
def exHash : HeaderM → Nat := fun h => h.number + 100

/-- Concrete snapshot entry used in witnesses. -/
def exSnap : SnapshotM := { block := exBlock0, timeAdjustment := 42 }

/-- Concrete controller state with two live snapshots used in witnesses. -/
def exState : BlockchainM :=
  { snapshots :=
      { snaps := [exSnap, { block := exBlock1, timeAdjustment := 50 }],
        blocks := [101], subscribed := true },
    latest := exBlock1, timeAdjustment := 50, pool := [77],
    db := [100, 101], stateRoot := 6 }

/-- Claim C1 witness: in a state with two snapshots, `snapshot()` returns id 3 and
`revert(1)` succeeds, restoring the captured block hash and offset and truncating
the snapshot list. -/
theorem snapshot_revert_restores_captured_state_witness :
    ((Blockchain.snapshot exState).1 = exState.snapshots.snaps.length + 1 ∧
     (Blockchain.snapshot exState).1 =
       (Blockchain.snapshot exState).2.snapshots.snaps.length) ∧
    ∃ s', Blockchain.revert exHash (some ((1 : Nat) : Int)) exState =
        Except.ok (true, s') ∧
      exHash s'.latest.header = exHash exSnap.block.header ∧
      s'.timeAdjustment = exSnap.timeAdjustment ∧
      s'.snapshots.snaps = exState.snapshots.snaps.take (1 - 1) :=
  snapshot_revert_restores_captured_state exHash exState 1 exSnap (by decide)
    (by decide)

/-- Claim C2: for any id ≥ 1 beyond the live snapshot list, `revert(id)` returns
`false` and leaves the whole observable state (snapshot list, pool, head block,
time offset, database, trie root) unchanged; `revert` throws if and only if the
id is null/undefined (`none`). -/
theorem revert_unknown_id_returns_false (hashFn : HeaderM → Nat)
    (s : BlockchainM) (k : Int) (h1 : 1 ≤ k)
    (h2 : (s.snapshots.snaps.length : Int) < k) :
    Blockchain.revert hashFn (some k) s = Except.ok (false, s) ∧
    (∀ id, (∃ e, Blockchain.revert hashFn id s = Except.error e) ↔ id = none) := by
  constructor
  · have hlt : ¬ (k < 1) := by omega
    have hnone : s.snapshots.snaps[(k - 1).toNat]? = none := by
      apply List.getElem?_eq_none
      omega
    simp only [Blockchain.revert, hlt, if_false, hnone]
  · intro id
    constructor
    · rintro ⟨e, he⟩
      match id with
      | none => rfl
      | some v =>
        obtain ⟨r, hr⟩ := revert_some_never_throws hashFn v s
        rw [hr] at he
        exact Except.noConfusion he
    · rintro rfl
      exact ⟨"invalid snapshotId", rfl⟩

/-- Claim C2 witness: `revert(99)` on a state with two snapshots returns `false`
with the state unchanged, and throws exactly for the null id. -/
theorem revert_unknown_id_returns_false_witness :
    Blockchain.revert exHash (some 99) exState = Except.ok (false, exState) ∧
    (∀ id, (∃ e, Blockchain.revert exHash id exState = Except.error e) ↔
      id = none) :=
  revert_unknown_id_returns_false exHash exState 99 (by decide) (by decide)

/-! ## Theorems: emission order -/

/-- Claim C3: in every run of the save pipeline's emission step — both the plain
path and the legacy-instamine path, where the emissions are deferred one
scheduling turn — the `blockLogs` event for a block occurs strictly before the
`block` event for the same block. -/
theorem blockLogs_emitted_before_block (instamine legacyInstamine : Bool)
    (txs : List Nat) (b : Nat) :
    ∃ i j : Nat, i < j ∧
      (emitNewBlock instamine legacyInstamine txs b)[i]? =
        some (BcEvent.blockLogs b) ∧
      (emitNewBlock instamine legacyInstamine txs b)[j]? =
        some (BcEvent.block b) := by
  unfold emitNewBlock
  set pre := txs.map BcEvent.finalized
    ++ (if instamine && legacyInstamine then [BcEvent.tick] else []) with hpre
  refine ⟨pre.length, pre.length + 1, Nat.lt_succ_self _, ?_, ?_⟩
  · rw [List.getElem?_append_right (Nat.le_refl pre.length)]
    simp
  · rw [List.getElem?_append_right (Nat.le_succ pre.length)]
    have h1 : pre.length + 1 - pre.length = 1 := by omega
    rw [h1]
    rfl

/-! ## Theorems: block filling -/

/-- Claim C4 (amended): the block built by `#fillNewBlock` has number
`previous head + 1` (and the genesis block has number 0), parent-hash the
previous head's header hash, state-root the current trie root, transactions-trie
and receipt-trie roots the miner-supplied roots, gas-limit the configured block
gas limit, and coinbase the configured coinbase.  (The configured extra-data is
*not* applied: see the counterexample.) -/
theorem fillNewBlock_header_fields (hashFn : HeaderM → Nat)
    (opts : MinerOptionsM) (coinbase : List Nat) (trieRoot : Nat)
    (latest : BlockM) (blockData : BlockDataM) (t g r : Nat) :
    (fillNewBlock hashFn opts coinbase trieRoot latest blockData).header.number
        = latest.header.number + 1 ∧
    (fillNewBlock hashFn opts coinbase trieRoot latest
        blockData).header.parentHash = hashFn latest.header ∧
    (fillNewBlock hashFn opts coinbase trieRoot latest
        blockData).header.stateRoot = trieRoot ∧
    (fillNewBlock hashFn opts coinbase trieRoot latest
        blockData).header.transactionsTrie = blockData.transactionsTrieRoot ∧
    (fillNewBlock hashFn opts coinbase trieRoot latest
        blockData).header.receiptTrie = blockData.receiptTrieRoot ∧
    (fillNewBlock hashFn opts coinbase trieRoot latest
        blockData).header.gasLimit = opts.blockGasLimit ∧
    (fillNewBlock hashFn opts coinbase trieRoot latest
        blockData).header.coinbase = coinbase ∧
    (initializeGenesisBlock t g r).header.number = 0 :=
  ⟨rfl, rfl, rfl, rfl, rfl, rfl, rfl, rfl⟩

/-- Concrete miner output used in the extra-data counterexample. -/
def exBlockData : BlockDataM :=
  { blockTransactions := [77], transactionsTrieRoot := 8, receiptTrieRoot := 9,
    gasUsed := 21000, timestamp := 1000 }

/-- Claim C4 counterexample: `#fillNewBlock` passes no extra-data to
`createBlock`, so the new block's extra-data is the block default, not the
configured `miner.extraData`: with `extraData := [1]` configured the block's
extra-data is not `[1]`, and configurations differing only in extra-data produce
identical blocks. -/
theorem fillNewBlock_ignores_configured_extraData :
    (fillNewBlock exHash { minerDefaults with extraData := [1] } ACCOUNT_ZERO 6
        exBlock0 exBlockData).header.extraData ≠ [1] ∧
    fillNewBlock exHash { minerDefaults with extraData := [1] } ACCOUNT_ZERO 6
        exBlock0 exBlockData =
      fillNewBlock exHash { minerDefaults with extraData := [2] } ACCOUNT_ZERO 6
        exBlock0 exBlockData :=
  ⟨by decide, rfl⟩

/-! ## Theorems: miner options -/

/-- Claim C8 (amended): the miner configuration defaults are blockTime = 0,
gasPrice = 2·10⁹ wei, blockGasLimit = 12·10⁶, defaultTransactionGasLimit =
90 000, callGasLimit = 2⁵³ − 1, coinbase = the zero address, legacyInstamine =
false; and a configuration with legacyInstamine = true and blockTime ≠ 0 is
*not* rejected: construction always succeeds, merely logging a no-effect warning
for that combination (legacyInstamine is inert when blockTime ≠ 0). -/
theorem miner_defaults_and_legacy_instamine (bt : Nat) (leg vme : Bool)
    (h : bt ≠ 0) :
    minerDefaults.blockTime = 0 ∧
    minerDefaults.gasPrice = 2000000000 ∧
    minerDefaults.blockGasLimit = 12000000 ∧
    minerDefaults.defaultTransactionGasLimit = 90000 ∧
    minerDefaults.callGasLimit = 2 ^ 53 - 1 ∧
    minerDefaults.coinbase = List.replicate 20 0 ∧
    minerDefaults.legacyInstamine = false ∧
    (∃ r, configureMiner bt leg vme = Except.ok r) ∧
    (leg = true → ∃ w, configureMiner bt leg vme = Except.ok (false, w) ∧
      "legacyInstamine-no-effect" ∈ w) := by
  have hb : (bt == 0) = false := by
    simpa using h
  refine ⟨rfl, rfl, rfl, rfl, by decide, rfl, rfl, ?_, ?_⟩
  · exact ⟨_, rfl⟩
  · rintro rfl
    refine ⟨["legacy-instamine-deprecated", "legacyInstamine-no-effect"]
        ++ (if vme then ["vmErrorsOnRPCResponse-no-effect"] else []), ?_, ?_⟩
    · simp [configureMiner, hb]
    · simp

/-- Claim C8 counterexample: the configuration blockTime = 2 with
legacyInstamine = true is accepted — construction returns successfully (with
warnings), it is not rejected as invalid. -/
theorem legacy_instamine_with_interval_accepted :
    configureMiner 2 true false =
      Except.ok (false,
        ["legacy-instamine-deprecated", "legacyInstamine-no-effect"]) := rfl

/-- Claim C8 witness: with blockTime = 2, legacyInstamine = true, the defaults
hold and construction succeeds with the no-effect warning. -/
theorem miner_defaults_and_legacy_instamine_witness :
    minerDefaults.blockTime = 0 ∧
    minerDefaults.gasPrice = 2000000000 ∧
    minerDefaults.blockGasLimit = 12000000 ∧
    minerDefaults.defaultTransactionGasLimit = 90000 ∧
    minerDefaults.callGasLimit = 2 ^ 53 - 1 ∧
    minerDefaults.coinbase = List.replicate 20 0 ∧
    minerDefaults.legacyInstamine = false ∧
    (∃ r, configureMiner 2 true false = Except.ok r) ∧
    (true = true → ∃ w, configureMiner 2 true false = Except.ok (false, w) ∧
      "legacyInstamine-no-effect" ∈ w) :=
  miner_defaults_and_legacy_instamine 2 true false (by decide)

/-- Claim C9: extra-data normalization rejects (throws for) any supplied value
longer than 32 and returns any value of length at most 32 unchanged. -/
theorem extraData_normalize_length_check (raw : List Nat) :
    (32 < raw.length → ∃ e, extraDataNormalize raw = Except.error e) ∧
    (raw.length ≤ 32 → extraDataNormalize raw = Except.ok raw) := by
  constructor
  · intro h
    refine ⟨"extra exceeds max length", ?_⟩
    unfold extraDataNormalize
    rw [if_pos h]
  · intro h
    unfold extraDataNormalize
    rw [if_neg (by omega)]

/-- Claim C9 witness: a 33-byte value is rejected and a 2-byte value is returned
unchanged. -/
theorem extraData_normalize_length_check_witness :
    (∃ e, extraDataNormalize (List.replicate 33 0) = Except.error e) ∧
    extraDataNormalize [1, 2] = Except.ok [1, 2] :=
  ⟨(extraData_normalize_length_check (List.replicate 33 0)).1 (by decide),
   (extraData_normalize_length_check [1, 2]).2 (by decide)⟩

/-! ## Theorems: transaction simulation -/

/-- Claim C5: `simulateTransaction` leaves the whole observable controller state
(head trie root, head block, pool, database) unchanged — in particular no new
block is produced — and whenever the VM runs, it runs on a fresh view of the trie
database rooted at the parent block's state root. -/
theorem simulateTransaction_isolated (vmErrors : Bool)
    (ig : Option (List Nat) → Int)
    (rc : CheckpointTrieM → CallSpec → EVMResultM)
    (tx : SimulationTxM) (pb : BlockM) (s : SimChainState) :
    (simulateTransaction vmErrors ig rc tx pb s).2.1 = s ∧
    (∀ t, (simulateTransaction vmErrors ig rc tx pb s).2.2 = some t →
      t.root = pb.header.stateRoot ∧ t.db = s.dbTrie) := by
  refine ⟨rfl, ?_⟩
  intro t ht
  have ht' : (simulateExec ig rc tx pb s.dbTrie).2 = some t := ht
  simp only [simulateExec] at ht'
  split at ht'
  · cases ht'
    exact ⟨rfl, rfl⟩
  · exact Option.noConfusion ht'

/-- Concrete simulation transaction used in witnesses. -/
def exSimTx : SimulationTxM :=
  { sender := 1, toAddr := some 2, gas := 100000, gasPrice := 20,
    value := some 0, data := none, blockHash := 3 }

/-- Concrete simulation transaction whose gas is below the intrinsic gas. -/
def exSimTxLowGas : SimulationTxM := { exSimTx with gas := 100 }

/-- Concrete controller state used in simulation witnesses. -/
def exSimState : SimChainState :=
  { trieRoot := 6, latest := exBlock1, pool := [], dbTrie := [(1, [2])] }

/-- Concrete VM `runCall` stub used in witnesses. -/
def exRunCall : CheckpointTrieM → CallSpec → EVMResultM :=
  fun _ _ => { exceptionError := none, returnValue := [7] }

/-- A second concrete VM `runCall` stub, observably different from the first. -/
def exRunCall2 : CheckpointTrieM → CallSpec → EVMResultM :=
  fun _ _ => { exceptionError := some (VmErrorKind.other 3), returnValue := [9] }

/-- Concrete intrinsic-gas function (the base transaction cost). -/
def exIntrinsicGas : Option (List Nat) → Int := fun _ => 21000

/-- Claim C5 witness: simulating against the genesis block leaves the state
unchanged and the VM view is rooted at the genesis state root over the trie
database. -/
theorem simulateTransaction_isolated_witness :
    (simulateTransaction false exIntrinsicGas exRunCall exSimTx exBlock0
        exSimState).2.1 = exSimState ∧
    (({ db := exSimState.dbTrie, root := exBlock0.header.stateRoot } :
        CheckpointTrieM).root = exBlock0.header.stateRoot ∧
      ({ db := exSimState.dbTrie, root := exBlock0.header.stateRoot } :
        CheckpointTrieM).db = exSimState.dbTrie) :=
  ⟨(simulateTransaction_isolated false exIntrinsicGas exRunCall exSimTx exBlock0
      exSimState).1,
   (simulateTransaction_isolated false exIntrinsicGas exRunCall exSimTx exBlock0
      exSimState).2
     { db := exSimState.dbTrie, root := exBlock0.header.stateRoot } (by decide)⟩

/-- Claim C6: when the intrinsic gas exceeds the supplied gas, the execution half
of `simulateTransaction` yields an out-of-gas error as the sole exec-result
exception without consulting the VM (the outcome is identical for any two VM
stubs); for any result carrying a VM exception, the response half throws a
`RuntimeError` wrapping that result exactly when `vmErrorsOnRPCResponse` is set,
and returns the execution's return (revert) data otherwise; and
`simulateTransaction` is exactly this execution step followed by this response
step. -/
theorem simulateTransaction_error_handling
    (ig : Option (List Nat) → Int)
    (rc rc2 : CheckpointTrieM → CallSpec → EVMResultM)
    (tx : SimulationTxM) (pb : BlockM) (db : List (Nat × List Nat))
    (hoog : tx.gas < ig tx.data) :
    (simulateExec ig rc tx pb db =
        ({ exceptionError := some VmErrorKind.outOfGas, returnValue := [] },
          none) ∧
      simulateExec ig rc tx pb db = simulateExec ig rc2 tx pb db) ∧
    (∀ (vmErrors : Bool) (result : EVMResultM),
      ((∃ e, simulateRespond vmErrors result = Except.error e ∧
          e.result = result) ↔
        (vmErrors = true ∧ result.exceptionError ≠ none)) ∧
      simulateRespond false result = Except.ok result.returnValue) ∧
    (∀ (vmErrors : Bool) (s : SimChainState),
      simulateTransaction vmErrors ig rc tx pb s =
        (simulateRespond vmErrors (simulateExec ig rc tx pb s.dbTrie).1, s,
          (simulateExec ig rc tx pb s.dbTrie).2)) := by
  have hneg : ¬ (0 ≤ tx.gas - ig tx.data) := by omega
  refine ⟨⟨?_, ?_⟩, ?_, fun _ _ => rfl⟩
  · unfold simulateExec
    rw [if_neg hneg]
  · unfold simulateExec
    rw [if_neg hneg, if_neg hneg]
  · intro vmErrors result
    constructor
    · constructor
      · rintro ⟨e, he, hres⟩
        unfold simulateRespond at he
        split at he
        · split at he
          next hv =>
            refine ⟨hv, ?_⟩
            rename_i k heq
            simp [heq]
          next => exact Except.noConfusion he
        · exact Except.noConfusion he
      · rintro ⟨rfl, hexc⟩
        obtain ⟨k, hk⟩ := Option.ne_none_iff_exists'.mp hexc
        refine ⟨{ hash := [], result := result }, ?_, rfl⟩
        unfold simulateRespond
        rw [hk]
        rfl
    · unfold simulateRespond
      split <;> rfl

/-- Claim C6 witness: a transaction with 100 gas (intrinsic cost 21000) yields
the sole out-of-gas exception without running the VM, and without
`vmErrorsOnRPCResponse` the (empty) return data is returned rather than thrown. -/
theorem simulateTransaction_error_handling_witness :
    simulateExec exIntrinsicGas exRunCall exSimTxLowGas exBlock0 [(1, [2])] =
      ({ exceptionError := some VmErrorKind.outOfGas, returnValue := [] },
        none) ∧
    simulateRespond false
        { exceptionError := some VmErrorKind.outOfGas, returnValue := [] } =
      Except.ok [] :=
  ⟨(simulateTransaction_error_handling exIntrinsicGas exRunCall exRunCall2
      exSimTxLowGas exBlock0 [(1, [2])] (by decide)).1.1,
   ((simulateTransaction_error_handling exIntrinsicGas exRunCall exRunCall2
      exSimTxLowGas exBlock0 [(1, [2])] (by decide)).2.1 false
     { exceptionError := some VmErrorKind.outOfGas, returnValue := [] }).2⟩
